import Mathlib

/-!
# monet: the MAPI login handshake of `mapi.go`

A shallow embedding of `src/mapi.go`: the `server` record, `NewServer`,
`Cmd`, `Connect`, `login`, `setConn`, `contains` and `challenge_response`.

Conventions of the embedding.

* A Go `string` is an immutable sequence of bytes: `GoString = List UInt8`.
  Source literals are written `str "..."` (their UTF-8 bytes).
* A Go function that may panic returns `Except GoPanic _`.
* The Go standard library (`strings`, `encoding/hex`, the `hash.Hash`
  interface) is modelled by small definitions below.  The digest functions of
  package `crypto`, `crypt.Crypt` of package `monet/crypt` and
  `net.DialTimeout` are not part of the source file; the functions that call
  them take them as parameters.
* Writes to `Logger` are not modelled.
-/

namespace Monet

/-! ## Go strings -/

/-- A Go string: a sequence of bytes. -/
abbrev GoString := List UInt8

/-- The bytes of a source literal. -/
def str (s : String) : GoString := s.toUTF8.data.toList

/-- Model of `strings.Split(s, sep)` for a non-empty separator: `s` is cut at
every leftmost, non-overlapping occurrence of `sep`.  `skip` counts the bytes
of the current separator occurrence that are still to be dropped and `acc`
holds the bytes of the current field in reverse. -/
def splitLoop (sep : GoString) : Nat → GoString → GoString → List GoString
  | _, [], acc => [acc.reverse]
  | skip + 1, _ :: cs, acc => splitLoop sep skip cs acc
  | 0, c :: cs, acc =>
    if sep.isPrefixOf (c :: cs) then acc.reverse :: splitLoop sep (sep.length - 1) cs []
    else splitLoop sep 0 cs (c :: acc)

/-- Model of `strings.Split`.  The source only calls it with the one-byte
separators `":"` and `","`. -/
def strings_Split (s sep : GoString) : List GoString := splitLoop sep 0 s []

/-- Model of `strings.Join(a, sep)`. -/
def strings_Join : List GoString → GoString → GoString
  | [], _ => []
  | [a], _ => a
  | a :: b :: rest, sep => a ++ sep ++ strings_Join (b :: rest) sep

/-- One lowercase hexadecimal digit, as in the table `0123456789abcdef` of
`encoding/hex`. -/
def hexDigit (n : Nat) : UInt8 :=
  if n < 10 then UInt8.ofNat (48 + n) else UInt8.ofNat (87 + n)

/-- Model of `hex.EncodeToString`: two lowercase digits per byte, high nibble
first. -/
def hex_EncodeToString : List UInt8 → GoString
  | [] => []
  | b :: bs => hexDigit (b.toNat / 16) :: hexDigit (b.toNat % 16) :: hex_EncodeToString bs

/-! ## Panics and errors -/

/-- The ways in which the modelled code can panic. -/
inductive GoPanic where
  /-- Run-time panic `index out of range [i] with length len`. -/
  | indexOutOfRange (i len : Nat)
  /-- Run-time panic `slice bounds out of range`. -/
  | sliceOutOfRange
  /-- The panic of `crypto.Hash.New` on a hash function that is not linked in. -/
  | hashUnavailable
  /-- An explicit `panic(msg)`. -/
  | message (msg : GoString)
  deriving DecidableEq, Repr

/-- A Go `error` value made by `errors.New`; the nil error is `none` of
`Option GoError`. -/
structure GoError where
  msg : GoString
  deriving DecidableEq, Repr

/-- Indexing `a[i]` of a slice, with the run-time bounds check. -/
def index (a : List GoString) (i : Nat) : Except GoPanic GoString :=
  match a.get? i with
  | some x => .ok x
  | none => .error (.indexOutOfRange i a.length)

/-- The slice expression `s[:hi]` with its bounds check. -/
def sliceTo (s : GoString) (hi : Nat) : Except GoPanic GoString :=
  if hi ≤ s.length then .ok (s.take hi) else .error .sliceOutOfRange

/-- The slice expression `s[len(s)-k:]`; the low bound `len(s)-k` is a signed
`int`, so it is out of range exactly when `len(s) < k`. -/
def sliceLast (s : GoString) (k : Nat) : Except GoPanic GoString :=
  if k ≤ s.length then .ok (s.drop (s.length - k)) else .error .sliceOutOfRange

/-! ## Package `crypto` -/

/-- The values of `crypto.Hash` that occur in `PyHashToGo`. -/
inductive crypto_Hash where
  | MD5 | SHA1 | SHA224 | SHA256 | SHA384 | SHA512
  deriving DecidableEq, Repr

/-- The map `PyHashToGo`.  A missing key is `none`; it stands for the zero
value `crypto.Hash(0)` that Go returns for it. -/
def PyHashToGo (algo : GoString) : Option crypto_Hash :=
  if algo = str "MD5" then some .MD5
  else if algo = str "SHA1" then some .SHA1
  else if algo = str "SHA224" then some .SHA224
  else if algo = str "SHA256" then some .SHA256
  else if algo = str "SHA384" then some .SHA384
  else if algo = str "SHA512" then some .SHA512
  else none

/-- The primitives the source imports from other packages: `digest h` is the
digest function of `crypto.Hash` value `h` (bytes to bytes) and `crypt` is
`crypt.Crypt(key, salt)` of package `monet/crypt`, which returns a string or
an error. -/
structure Primitives where
  digest : crypto_Hash → List UInt8 → List UInt8
  crypt : GoString → GoString → Except GoError GoString

/-- A `hash.Hash` in use: the algorithm and the bytes written so far. -/
structure hash_Hash where
  alg : crypto_Hash
  written : List UInt8

/-- Model of `h.New()`.  All six values of `PyHashToGo` are linked in by the
imports of `mapi.go` (`crypto/md5`, `crypto/sha1`, `crypto/sha256`,
`crypto/sha512`); the zero value is not, and `New` panics on it. -/
def crypto_New : Option crypto_Hash → Except GoPanic hash_Hash
  | some h => .ok ⟨h, []⟩
  | none => .error .hashUnavailable

/-- Model of `h.Write(p)`: the bytes are appended to the input. -/
def hash_Hash.Write (h : hash_Hash) (p : List UInt8) : hash_Hash :=
  { h with written := h.written ++ p }

/-- Model of `h.Sum(nil)`: the digest of everything written. -/
def hash_Hash.Sum (P : Primitives) (h : hash_Hash) : List UInt8 :=
  P.digest h.alg h.written

/-! ## The server -/

/-- A value of an interface type (`interface{}`, `net.Conn`): nil or a handle. -/
abbrev Iface := Option Nat

def STATE_INIT : Int := 0
def STATE_READY : Int := 1
def NET : GoString := str "tcp"

/-- The package variable `notImplemented`. -/
def notImplemented : GoError := ⟨str "Not implemented yet."⟩

/-- The struct `conn`. -/
structure conn where
  hostname : GoString
  port : GoString
  username : GoString
  password : GoString
  database : GoString
  language : GoString
  netConn : Iface
  deriving DecidableEq, Repr

/-- The struct `server`, which embeds `conn`. -/
structure server extends conn where
  state : Int
  result : Iface
  socket : Iface
  deriving DecidableEq, Repr

/-- Function `NewServer`: a zero `conn`, state `STATE_INIT`, nil result and socket. -/
def NewServer : server :=
  { hostname := [], port := [], username := [], password := [], database := [],
    language := [], netConn := none, state := STATE_INIT, result := none, socket := none }

/-- Method `Cmd`: returns `notImplemented`; the receiver is not written. -/
def Cmd (srv : server) (_operation : GoString) : server × Option GoError :=
  (srv, some notImplemented)

/-- Method `login`: the body is a bare `return`, so `err` is nil and the receiver is
not written. -/
def login (srv : server) (_iteration : Int) : server × Option GoError :=
  (srv, none)

/-- Method `setConn`: six field assignments. -/
def setConn (srv : server) (hostname port username password database language : GoString) :
    server :=
  let srv := { srv with hostname := hostname }
  let srv := { srv with port := port }
  let srv := { srv with username := username }
  let srv := { srv with password := password }
  let srv := { srv with database := database }
  let srv := { srv with language := language }
  srv

/-- Method `Connect`.  The parameter `dial network address timeout` stands for `net.DialTimeout`;
it returns the pair (connection, error) that the source assigns to
`srv.netConn, err`. -/
def Connect (dial : GoString → GoString → Int → Iface × Option GoError) (srv : server)
    (hostname port username password database language : GoString) (timeout : Int) :
    server × Option GoError :=
  let srv := setConn srv hostname port username password database language
  let r := dial NET (hostname ++ port) timeout
  let srv := { srv with netConn := r.1 }
  match r.2 with
  | some e => (srv, some e)
  | none => login srv 0

/-- Function `contains`: the loop sets `b` to true at every element equal to `item`. -/
def contains (list : List GoString) (item : GoString) : Bool :=
  list.foldl (fun b v => if v = item then true else b) false

/-- Method `challenge_response`: generate a response to a mapi login challenge. -/
def challenge_response (P : Primitives) (srv : server) (challenge : GoString) :
    Except GoPanic GoString := do
  let challenges := strings_Split challenge (str ":")
  let salt ← index challenges 0
  let _ ← index challenges 1
  let protocol ← index challenges 2
  let hashes ← index challenges 3
  let _ ← index challenges 4
  let password := srv.password
  let password ←
    if protocol = str "9" then do
      let algo ← index challenges 5
      let h ← crypto_New (PyHashToGo algo)
      let h := h.Write password
      pure (hex_EncodeToString (h.Sum P))
    else if protocol ≠ str "8" then
      throw (GoPanic.message (str "We only speak protocol v8 and v9"))
    else pure password
  let pwhash : GoString := []
  let hh := strings_Split hashes (str ",")
  let pwhash ←
    if contains hh (str "SHA1") then do
      let s ← crypto_New (some crypto_Hash.SHA1)
      let s := s.Write password
      let s := s.Write salt
      pure (str "{SHA1}" ++ hex_EncodeToString (s.Sum P))
    else if contains hh (str "MD5") then do
      let s ← crypto_New (some crypto_Hash.MD5)
      let s := s.Write password
      let s := s.Write salt
      pure (str "{MD5}" ++ hex_EncodeToString (s.Sum P))
    else if contains hh (str "crypt") then do
      -- `pwhash, err := crypt.Crypt(...)` declares a new `pwhash` in the
      -- scope of this branch; the assignment below writes that inner
      -- variable, and the outer `pwhash` keeps its value.
      let key ← sliceTo (password ++ salt) 8
      let salt2 ← sliceLast salt 2
      match P.crypt key salt2 with
      | .error err => throw (GoPanic.message err.msg)
      | .ok inner =>
        let _inner := str "{crypt}" ++ inner
        pure pwhash
    else pure (str "{plain}" ++ password ++ salt)
  pure (strings_Join [str "BIG", srv.username, pwhash, srv.language, srv.database] (str ":")
    ++ str ":")

/-! ## Decidable equality of results -/

/-- Equality of results is decidable, so closed instances can be evaluated. -/
instance instDecidableEqExcept {ε α : Type} [DecidableEq ε] [DecidableEq α] :
    DecidableEq (Except ε α)
  | .ok a, .ok b =>
    if h : a = b then isTrue (by rw [h]) else isFalse (by intro h2; cases h2; exact h rfl)
  | .error a, .error b =>
    if h : a = b then isTrue (by rw [h]) else isFalse (by intro h2; cases h2; exact h rfl)
  | .ok _, .error _ => isFalse (by intro h; cases h)
  | .error _, .ok _ => isFalse (by intro h; cases h)

/-! ## Sample inputs -/

/-- Sample primitives for evaluating the model on concrete inputs.  They stand
in for the real digests and the real `crypt`, of which the model is
independent: the sample digest is the algorithm's index followed by the
reversed input, the sample `crypt` is the salt followed by the key. -/
def samplePrimitives : Primitives where
  digest := fun h bs =>
    (match h with
      | .MD5 => 0 | .SHA1 => 1 | .SHA224 => 2 | .SHA256 => 3 | .SHA384 => 4 | .SHA512 => 5)
      :: bs.reverse
  crypt := fun key salt => .ok (salt ++ key)

/-- A server as `Connect` leaves it after `setConn`. -/
def sampleServer : server :=
  setConn NewServer (str "localhost") (str ":50000") (str "monetdb") (str "secret")
    (str "demo") (str "sql")

/-- A `net.DialTimeout` that always succeeds with connection handle 1. -/
def sampleDial : GoString → GoString → Int → Iface × Option GoError :=
  fun _ _ _ => (some 1, none)

/-! ## Supporting lemmas -/

theorem ok_bind {α β : Type} (a : α) (f : α → Except GoPanic β) :
    (Except.ok a >>= f) = f a := rfl

theorem error_bind {α β : Type} (e : GoPanic) (f : α → Except GoPanic β) :
    (Except.error e >>= f) = Except.error e := rfl

theorem throw_bind {α β : Type} (e : GoPanic) (f : α → Except GoPanic β) :
    ((throw e : Except GoPanic α) >>= f) = Except.error e := rfl

theorem pure_eq_ok {α : Type} (a : α) : (pure a : Except GoPanic α) = Except.ok a := rfl

/-! ### `strings.Split` and `strings.Join` with a one-byte separator -/

theorem splitLoop_sep (b : UInt8) (cs acc : GoString) :
    splitLoop [b] 0 (b :: cs) acc = acc.reverse :: splitLoop [b] 0 cs [] := by
  simp [splitLoop, List.isPrefixOf]

theorem splitLoop_other (b c : UInt8) (cs acc : GoString) (h : c ≠ b) :
    splitLoop [b] 0 (c :: cs) acc = splitLoop [b] 0 cs (c :: acc) := by
  have h2 : ¬ b = c := fun e => h e.symm
  simp [splitLoop, List.isPrefixOf, h2]

theorem splitLoop_last (b : UInt8) (f acc : GoString) (hf : b ∉ f) :
    splitLoop [b] 0 f acc = [acc.reverse ++ f] := by
  induction f generalizing acc with
  | nil => simp [splitLoop]
  | cons c cs ih =>
    have hc : c ≠ b := fun e => hf (by simp [e])
    have hcs : b ∉ cs := fun e => hf (by simp [e])
    rw [splitLoop_other b c cs acc hc, ih _ hcs]
    simp

theorem splitLoop_field (b : UInt8) (f rest acc : GoString) (hf : b ∉ f) :
    splitLoop [b] 0 (f ++ b :: rest) acc = (acc.reverse ++ f) :: splitLoop [b] 0 rest [] := by
  induction f generalizing acc with
  | nil => simp [splitLoop_sep]
  | cons c cs ih =>
    have hc : c ≠ b := fun e => hf (by simp [e])
    have hcs : b ∉ cs := fun e => hf (by simp [e])
    rw [List.cons_append, splitLoop_other b c _ acc hc, ih _ hcs]
    simp

/-- Splitting a joined list of separator-free fields gives the fields back. -/
theorem split_join (b : UInt8) (fs : List GoString) (hne : fs ≠ [])
    (hfs : ∀ f ∈ fs, b ∉ f) : strings_Split (strings_Join fs [b]) [b] = fs := by
  unfold strings_Split
  induction fs with
  | nil => exact absurd rfl hne
  | cons f gs ih =>
    cases gs with
    | nil => simpa [strings_Join] using splitLoop_last b f [] (hfs f (by simp))
    | cons g hs =>
      have hf : b ∉ f := hfs f (by simp)
      have ih2 := ih (by simp) (fun x hx => hfs x (List.mem_cons_of_mem _ hx))
      simp only [strings_Join, List.append_assoc, List.singleton_append]
      rw [splitLoop_field b f _ [] hf, ih2]
      simp

theorem splitLoop_free (b : UInt8) (s acc : GoString) (hacc : b ∉ acc) :
    ∀ f ∈ splitLoop [b] 0 s acc, b ∉ f := by
  induction s generalizing acc with
  | nil => simpa [splitLoop] using hacc
  | cons c cs ih =>
    by_cases hc : c = b
    · subst hc
      rw [splitLoop_sep]
      intro f hf
      rcases List.mem_cons.mp hf with h | h
      · rw [h]; simpa using hacc
      · exact ih [] (by simp) f h
    · rw [splitLoop_other b c cs acc hc]
      have hb : ¬ b = c := fun e => hc e.symm
      exact ih (c :: acc) (by simp [hb, hacc])

/-- No field of a split contains the separator byte. -/
theorem split_free (b : UInt8) (s : GoString) : ∀ f ∈ strings_Split s [b], b ∉ f :=
  splitLoop_free b s [] (by simp)

theorem splitLoop_ne_nil (b : UInt8) (s acc : GoString) : splitLoop [b] 0 s acc ≠ [] := by
  induction s generalizing acc with
  | nil => simp [splitLoop]
  | cons c cs ih =>
    by_cases hc : c = b
    · subst hc; rw [splitLoop_sep]; simp
    · rw [splitLoop_other b c cs acc hc]; exact ih _

/-- Joining the fields of a split gives the string back. -/
theorem splitLoop_join (b : UInt8) (s acc : GoString) :
    strings_Join (splitLoop [b] 0 s acc) [b] = acc.reverse ++ s := by
  induction s generalizing acc with
  | nil => simp [splitLoop, strings_Join]
  | cons c cs ih =>
    by_cases hc : c = b
    · subst hc
      rw [splitLoop_sep]
      have h := ih []
      cases hl : splitLoop [c] 0 cs [] with
      | nil => exact absurd hl (splitLoop_ne_nil c cs [])
      | cons g gs =>
        rw [hl] at h
        simp only [strings_Join, h]
        simp
    · rw [splitLoop_other b c cs acc hc, ih]; simp

theorem join_split (b : UInt8) (s : GoString) :
    strings_Join (strings_Split s [b]) [b] = s := by
  simpa [strings_Split] using splitLoop_join b s []

theorem str_colon : str ":" = [58] := by decide

theorem str_comma : str "," = [44] := by decide

/-! ### `contains` -/

theorem contains_foldl_true (l : List GoString) (item : GoString) :
    List.foldl (fun b v => if v = item then true else b) true l = true := by
  induction l with
  | nil => rfl
  | cons v vs ih =>
    rw [List.foldl_cons]
    by_cases h : v = item
    · rw [if_pos h]; exact ih
    · rw [if_neg h]; exact ih

theorem contains_iff (l : List GoString) (item : GoString) :
    contains l item = true ↔ item ∈ l := by
  unfold contains
  induction l with
  | nil => simp
  | cons v vs ih =>
    rw [List.foldl_cons]
    by_cases h : v = item
    · rw [if_pos h, contains_foldl_true]; simp [h]
    · have h2 : ¬ item = v := fun e => h e.symm
      rw [if_neg h, ih]; simp [h2]

theorem contains_eq_false_iff (l : List GoString) (item : GoString) :
    contains l item = false ↔ item ∉ l := by
  rw [← contains_iff]; simp

theorem fields_shape (l : List GoString) (h : 5 ≤ l.length) :
    ∃ a b c d e rest, l = a :: b :: c :: d :: e :: rest := by
  match l, h with
  | a :: b :: c :: d :: e :: rest, _ => exact ⟨a, b, c, d, e, rest, rfl⟩

theorem fields_of (l : List GoString) (salt proto hashes : GoString) (h5 : 5 ≤ l.length)
    (h0 : l[0]? = some salt) (h2 : l[2]? = some proto) (h3 : l[3]? = some hashes) :
    ∃ f1 f4 rest, l = salt :: f1 :: proto :: hashes :: f4 :: rest := by
  obtain ⟨a, b, c, d, e, rest, rfl⟩ := fields_shape l h5
  simp at h0 h2 h3
  subst h0 h2 h3
  exact ⟨b, e, rest, rfl⟩

/-! ### `challenge_response`, branch by branch -/

theorem str_8_ne_9 : str "8" ≠ str "9" := by decide

theorem str_BIG : str "BIG:" = str "BIG" ++ str ":" := by decide

theorem response_v8_sha1 (P : Primitives) (srv : server)
    (challenge salt f1 hashes f4 : GoString) (rest : List GoString)
    (h : strings_Split challenge (str ":") = salt :: f1 :: str "8" :: hashes :: f4 :: rest)
    (hs : contains (strings_Split hashes (str ",")) (str "SHA1") = true) :
    challenge_response P srv challenge =
      .ok (str "BIG:" ++ srv.username ++ str ":" ++ str "{SHA1}" ++
        hex_EncodeToString (P.digest .SHA1 (srv.password ++ salt)) ++
        str ":" ++ srv.language ++ str ":" ++ srv.database ++ str ":") := by
  simp only [challenge_response, h, index]
  simp [str_8_ne_9, hs, crypto_New, hash_Hash.Write, hash_Hash.Sum, strings_Join, str_BIG,
    ok_bind, pure_eq_ok]

theorem response_v8_md5 (P : Primitives) (srv : server)
    (challenge salt f1 hashes f4 : GoString) (rest : List GoString)
    (h : strings_Split challenge (str ":") = salt :: f1 :: str "8" :: hashes :: f4 :: rest)
    (hs : contains (strings_Split hashes (str ",")) (str "SHA1") = false)
    (hm : contains (strings_Split hashes (str ",")) (str "MD5") = true) :
    challenge_response P srv challenge =
      .ok (str "BIG:" ++ srv.username ++ str ":" ++ str "{MD5}" ++
        hex_EncodeToString (P.digest .MD5 (srv.password ++ salt)) ++
        str ":" ++ srv.language ++ str ":" ++ srv.database ++ str ":") := by
  simp only [challenge_response, h, index]
  simp [str_8_ne_9, hs, hm, crypto_New, hash_Hash.Write, hash_Hash.Sum, strings_Join, str_BIG,
    ok_bind, pure_eq_ok]

theorem response_v8_crypt (P : Primitives) (srv : server)
    (challenge salt f1 hashes f4 : GoString) (rest : List GoString)
    (h : strings_Split challenge (str ":") = salt :: f1 :: str "8" :: hashes :: f4 :: rest)
    (hs : contains (strings_Split hashes (str ",")) (str "SHA1") = false)
    (hm : contains (strings_Split hashes (str ",")) (str "MD5") = false)
    (hc : contains (strings_Split hashes (str ",")) (str "crypt") = true)
    (hlen : 8 ≤ (srv.password ++ salt).length) (hsalt : 2 ≤ salt.length) (out : GoString)
    (hout : P.crypt ((srv.password ++ salt).take 8) (salt.drop (salt.length - 2)) = .ok out) :
    challenge_response P srv challenge =
      .ok (str "BIG:" ++ srv.username ++ str ":" ++ str ":" ++ srv.language ++ str ":" ++
        srv.database ++ str ":") := by
  have hlen2 : 8 ≤ srv.password.length + salt.length := by simpa using hlen
  simp only [challenge_response, h, index]
  simp [str_8_ne_9, hs, hm, hc, strings_Join, str_BIG, ok_bind, pure_eq_ok, sliceTo,
    sliceLast, hlen2, hsalt, hout]

theorem response_v8_crypt_error (P : Primitives) (srv : server)
    (challenge salt f1 hashes f4 : GoString) (rest : List GoString)
    (h : strings_Split challenge (str ":") = salt :: f1 :: str "8" :: hashes :: f4 :: rest)
    (hs : contains (strings_Split hashes (str ",")) (str "SHA1") = false)
    (hm : contains (strings_Split hashes (str ",")) (str "MD5") = false)
    (hc : contains (strings_Split hashes (str ",")) (str "crypt") = true)
    (hlen : 8 ≤ (srv.password ++ salt).length) (hsalt : 2 ≤ salt.length) (err : GoError)
    (herr : P.crypt ((srv.password ++ salt).take 8) (salt.drop (salt.length - 2)) =
      .error err) :
    challenge_response P srv challenge = .error (.message err.msg) := by
  have hlen2 : 8 ≤ srv.password.length + salt.length := by simpa using hlen
  simp only [challenge_response, h, index]
  simp [str_8_ne_9, hs, hm, hc, ok_bind, throw_bind, sliceTo, sliceLast, hlen2, hsalt, herr]
  rfl

theorem response_v8_plain (P : Primitives) (srv : server)
    (challenge salt f1 hashes f4 : GoString) (rest : List GoString)
    (h : strings_Split challenge (str ":") = salt :: f1 :: str "8" :: hashes :: f4 :: rest)
    (hs : contains (strings_Split hashes (str ",")) (str "SHA1") = false)
    (hm : contains (strings_Split hashes (str ",")) (str "MD5") = false)
    (hc : contains (strings_Split hashes (str ",")) (str "crypt") = false) :
    challenge_response P srv challenge =
      .ok (str "BIG:" ++ srv.username ++ str ":" ++ str "{plain}" ++ srv.password ++ salt ++
        str ":" ++ srv.language ++ str ":" ++ srv.database ++ str ":") := by
  simp only [challenge_response, h, index]
  simp [str_8_ne_9, hs, hm, hc, strings_Join, str_BIG, ok_bind, pure_eq_ok]

theorem response_other (P : Primitives) (srv : server)
    (challenge salt f1 proto hashes f4 : GoString) (rest : List GoString)
    (h : strings_Split challenge (str ":") = salt :: f1 :: proto :: hashes :: f4 :: rest)
    (h8 : proto ≠ str "8") (h9 : proto ≠ str "9") :
    challenge_response P srv challenge =
      .error (.message (str "We only speak protocol v8 and v9")) := by
  simp only [challenge_response, h, index]
  simp [h8, h9, ok_bind, throw_bind]

theorem response_v9 (P : Primitives) (srv : server) (h : crypto_Hash)
    (c9 c8 salt f1 hashes f4 A g1 g4 : GoString) (rest rest8 : List GoString)
    (h9 : strings_Split c9 (str ":") = salt :: f1 :: str "9" :: hashes :: f4 :: A :: rest)
    (h8 : strings_Split c8 (str ":") = salt :: g1 :: str "8" :: hashes :: g4 :: rest8)
    (hA : PyHashToGo A = some h) :
    challenge_response P srv c9 =
      challenge_response P
        { srv with password := hex_EncodeToString (P.digest h srv.password) } c8 := by
  simp only [challenge_response, h9, h8, index]
  simp [str_8_ne_9, hA, crypto_New, hash_Hash.Write, hash_Hash.Sum, ok_bind, pure_eq_ok]

/-! ## The claims -/

/-- C1: for every server state and every challenge with at least five
colon-separated fields whose third field is "8" and whose fourth field, split
on commas, contains "SHA1", `challenge_response` returns exactly
`BIG:<username>:{SHA1}<hex>:<language>:<database>:`, where `<hex>` is the
lowercase hexadecimal encoding of the SHA1 digest of the password bytes
followed by the bytes of the salt, the first field. -/
theorem challenge_response_sha1 (P : Primitives) (srv : server)
    (challenge salt hashes : GoString)
    (h5 : 5 ≤ (strings_Split challenge (str ":")).length)
    (h0 : (strings_Split challenge (str ":"))[0]? = some salt)
    (h2 : (strings_Split challenge (str ":"))[2]? = some (str "8"))
    (h3 : (strings_Split challenge (str ":"))[3]? = some hashes)
    (hsha : str "SHA1" ∈ strings_Split hashes (str ",")) :
    challenge_response P srv challenge =
      .ok (str "BIG:" ++ srv.username ++ str ":" ++ str "{SHA1}" ++
        hex_EncodeToString (P.digest .SHA1 (srv.password ++ salt)) ++
        str ":" ++ srv.language ++ str ":" ++ srv.database ++ str ":") := by
  obtain ⟨f1, f4, rest, h⟩ := fields_of _ salt (str "8") hashes h5 h0 h2 h3
  exact response_v8_sha1 P srv challenge salt f1 hashes f4 rest h ((contains_iff _ _).mpr hsha)

/-- Witness of C1 on the challenge `salt:mserver:8:SHA1:LIT`. -/
theorem challenge_response_sha1_witness :
    challenge_response samplePrimitives sampleServer (str "salt:mserver:8:SHA1:LIT") =
      .ok (str "BIG:monetdb:{SHA1}01746c6173746572636573:sql:demo:") :=
  challenge_response_sha1 samplePrimitives sampleServer (str "salt:mserver:8:SHA1:LIT")
    (str "salt") (str "SHA1") (by decide) (by decide) (by decide) (by decide) (by decide)

/-- C2: the hash is chosen by the fixed preference order SHA1, then MD5, and
not by the order of the server's list: on a protocol-"8" challenge with at
least five fields, if the comma-separated hash list contains "SHA1" anywhere
the tagged hash is `{SHA1}` followed by the hex SHA1 digest of password ++
salt, and if it contains "MD5" but no element equal to "SHA1" the tagged hash
is `{MD5}` followed by the hex MD5 digest of password ++ salt. -/
theorem challenge_response_preference (P : Primitives) (srv : server)
    (challenge salt hashes : GoString)
    (h5 : 5 ≤ (strings_Split challenge (str ":")).length)
    (h0 : (strings_Split challenge (str ":"))[0]? = some salt)
    (h2 : (strings_Split challenge (str ":"))[2]? = some (str "8"))
    (h3 : (strings_Split challenge (str ":"))[3]? = some hashes) :
    (∀ before after : List GoString,
      strings_Split hashes (str ",") = before ++ str "SHA1" :: after →
      challenge_response P srv challenge =
        .ok (str "BIG:" ++ srv.username ++ str ":" ++
          (str "{SHA1}" ++ hex_EncodeToString (P.digest .SHA1 (srv.password ++ salt))) ++
          str ":" ++ srv.language ++ str ":" ++ srv.database ++ str ":")) ∧
    (str "MD5" ∈ strings_Split hashes (str ",") →
      str "SHA1" ∉ strings_Split hashes (str ",") →
      challenge_response P srv challenge =
        .ok (str "BIG:" ++ srv.username ++ str ":" ++
          (str "{MD5}" ++ hex_EncodeToString (P.digest .MD5 (srv.password ++ salt))) ++
          str ":" ++ srv.language ++ str ":" ++ srv.database ++ str ":")) := by
  obtain ⟨f1, f4, rest, h⟩ := fields_of _ salt (str "8") hashes h5 h0 h2 h3
  constructor
  · intro before after hl
    have hs : contains (strings_Split hashes (str ",")) (str "SHA1") = true :=
      (contains_iff _ _).mpr (by rw [hl]; simp)
    rw [response_v8_sha1 P srv challenge salt f1 hashes f4 rest h hs]
    simp
  · intro hmd hno
    rw [response_v8_md5 P srv challenge salt f1 hashes f4 rest h
      ((contains_eq_false_iff _ _).mpr hno) ((contains_iff _ _).mpr hmd)]
    simp

/-- Witness of C2: SHA1 is used although the list names it last, and MD5 is
used when the list names `crypt` first and SHA1 nowhere. -/
theorem challenge_response_preference_witness :
    challenge_response samplePrimitives sampleServer
        (str "salt:mserver:8:crypt,MD5,SHA1:LIT") =
      .ok (str "BIG:monetdb:{SHA1}01746c6173746572636573:sql:demo:") ∧
    challenge_response samplePrimitives sampleServer (str "salt:mserver:8:crypt,MD5:LIT") =
      .ok (str "BIG:monetdb:{MD5}00746c6173746572636573:sql:demo:") :=
  ⟨(challenge_response_preference samplePrimitives sampleServer
      (str "salt:mserver:8:crypt,MD5,SHA1:LIT") (str "salt") (str "crypt,MD5,SHA1")
      (by decide) (by decide) (by decide) (by decide)).1 [str "crypt", str "MD5"] []
      (by decide),
   (challenge_response_preference samplePrimitives sampleServer
      (str "salt:mserver:8:crypt,MD5:LIT") (str "salt") (str "crypt,MD5")
      (by decide) (by decide) (by decide) (by decide)).2 (by decide) (by decide)⟩

/-- C3 (what the code does): on a protocol-"8" challenge whose hash list
contains "crypt" but neither "SHA1" nor "MD5", with len(password ++ salt) >= 8,
len(salt) >= 2 and `crypt` succeeding on the first 8 bytes of password ++ salt
and the last 2 bytes of the salt, the third field of the line returned by
`challenge_response` is empty: the `{crypt}` value is assigned to a variable
local to the branch and the line is `BIG:<username>::<language>:<database>:`. -/
theorem challenge_response_crypt_empty (P : Primitives) (srv : server)
    (challenge salt hashes out : GoString)
    (h5 : 5 ≤ (strings_Split challenge (str ":")).length)
    (h0 : (strings_Split challenge (str ":"))[0]? = some salt)
    (h2 : (strings_Split challenge (str ":"))[2]? = some (str "8"))
    (h3 : (strings_Split challenge (str ":"))[3]? = some hashes)
    (hc : str "crypt" ∈ strings_Split hashes (str ","))
    (hs : str "SHA1" ∉ strings_Split hashes (str ","))
    (hm : str "MD5" ∉ strings_Split hashes (str ","))
    (hlen : 8 ≤ (srv.password ++ salt).length) (hsalt : 2 ≤ salt.length)
    (hout : P.crypt ((srv.password ++ salt).take 8) (salt.drop (salt.length - 2)) = .ok out) :
    challenge_response P srv challenge =
        .ok (str "BIG:" ++ srv.username ++ str ":" ++ [] ++ str ":" ++ srv.language ++
          str ":" ++ srv.database ++ str ":") ∧
    challenge_response P srv challenge ≠
        .ok (str "BIG:" ++ srv.username ++ str ":" ++ (str "{crypt}" ++ out) ++ str ":" ++
          srv.language ++ str ":" ++ srv.database ++ str ":") := by
  obtain ⟨f1, f4, rest, h⟩ := fields_of _ salt (str "8") hashes h5 h0 h2 h3
  have e := response_v8_crypt P srv challenge salt f1 hashes f4 rest h
    ((contains_eq_false_iff _ _).mpr hs) ((contains_eq_false_iff _ _).mpr hm)
    ((contains_iff _ _).mpr hc) hlen hsalt out hout
  obtain ⟨t, hb⟩ : ∃ t, str "{crypt}" = 123 :: t := ⟨(str "{crypt}").tail, by decide⟩
  have hcol : str ":" = [58] := by decide
  rw [e]
  constructor
  · simp
  · intro hcontra
    simp [hb, hcol] at hcontra

/-- Witness of C3 at the failing input `salt:mserver:8:crypt:LIT`: the line has
an empty third field where the claim expects `{crypt}ltsecretsa`. -/
theorem challenge_response_crypt_empty_witness :
    challenge_response samplePrimitives sampleServer (str "salt:mserver:8:crypt:LIT") =
        .ok (str "BIG:monetdb::sql:demo:") ∧
    challenge_response samplePrimitives sampleServer (str "salt:mserver:8:crypt:LIT") ≠
        .ok (str "BIG:monetdb:{crypt}ltsecretsa:sql:demo:") :=
  challenge_response_crypt_empty samplePrimitives sampleServer
    (str "salt:mserver:8:crypt:LIT") (str "salt") (str "crypt") (str "ltsecretsa")
    (by decide) (by decide) (by decide) (by decide) (by decide) (by decide) (by decide)
    (by decide) (by decide) (by decide)

/-- C4: for every algorithm name A among MD5, SHA1, SHA224, SHA256, SHA384,
SHA512 and every six-field challenge with protocol field "9" and sixth field
A, `challenge_response` on a server with password p returns the same as
`challenge_response` on the same challenge with the protocol field replaced by
"8" on a server that is identical except that its password is the lowercase
hex digest of p under A itself (MD5 for "MD5", SHA1 for "SHA1", SHA224 for
"SHA224", SHA256 for "SHA256", SHA384 for "SHA384", SHA512 for "SHA512"),
which is the entry of `PyHashToGo` for A; and for protocol "8" the password
enters the hash unmodified: the digest input is
password ++ salt, the plain form carries the password itself, and `crypt` is
called on the first 8 bytes of password ++ salt (its error, if any, is the
panic of `challenge_response`). -/
theorem challenge_response_v9_prehash (P : Primitives) (srv : server)
    (challenge A : GoString) (h : crypto_Hash)
    (h6 : (strings_Split challenge (str ":")).length = 6)
    (h2 : (strings_Split challenge (str ":"))[2]? = some (str "9"))
    (h5 : (strings_Split challenge (str ":"))[5]? = some A)
    (hA : (A, h) ∈ [(str "MD5", crypto_Hash.MD5), (str "SHA1", crypto_Hash.SHA1),
      (str "SHA224", crypto_Hash.SHA224), (str "SHA256", crypto_Hash.SHA256),
      (str "SHA384", crypto_Hash.SHA384), (str "SHA512", crypto_Hash.SHA512)]) :
    (PyHashToGo A = some h ∧
      challenge_response P srv challenge =
        challenge_response P
          { srv with password := hex_EncodeToString (P.digest h srv.password) }
          (strings_Join ((strings_Split challenge (str ":")).set 2 (str "8")) (str ":"))) ∧
    (∀ c8 salt hashes : GoString,
      5 ≤ (strings_Split c8 (str ":")).length →
      (strings_Split c8 (str ":"))[0]? = some salt →
      (strings_Split c8 (str ":"))[2]? = some (str "8") →
      (strings_Split c8 (str ":"))[3]? = some hashes →
      (str "SHA1" ∈ strings_Split hashes (str ",") →
        challenge_response P srv c8 =
          .ok (str "BIG:" ++ srv.username ++ str ":" ++ str "{SHA1}" ++
            hex_EncodeToString (P.digest .SHA1 (srv.password ++ salt)) ++
            str ":" ++ srv.language ++ str ":" ++ srv.database ++ str ":")) ∧
      (str "SHA1" ∉ strings_Split hashes (str ",") →
        str "MD5" ∈ strings_Split hashes (str ",") →
        challenge_response P srv c8 =
          .ok (str "BIG:" ++ srv.username ++ str ":" ++ str "{MD5}" ++
            hex_EncodeToString (P.digest .MD5 (srv.password ++ salt)) ++
            str ":" ++ srv.language ++ str ":" ++ srv.database ++ str ":")) ∧
      (str "SHA1" ∉ strings_Split hashes (str ",") →
        str "MD5" ∉ strings_Split hashes (str ",") →
        str "crypt" ∉ strings_Split hashes (str ",") →
        challenge_response P srv c8 =
          .ok (str "BIG:" ++ srv.username ++ str ":" ++ str "{plain}" ++ srv.password ++
            salt ++ str ":" ++ srv.language ++ str ":" ++ srv.database ++ str ":")) ∧
      (str "SHA1" ∉ strings_Split hashes (str ",") →
        str "MD5" ∉ strings_Split hashes (str ",") →
        str "crypt" ∈ strings_Split hashes (str ",") →
        8 ≤ (srv.password ++ salt).length → 2 ≤ salt.length →
        ∀ err : GoError,
          P.crypt ((srv.password ++ salt).take 8) (salt.drop (salt.length - 2)) =
            .error err →
          challenge_response P srv c8 = .error (.message err.msg))) := by
  constructor
  · -- the shape of the field list
    have hfree := split_free 58 challenge
    rw [← str_colon] at hfree
    generalize hl : strings_Split challenge (str ":") = l at h6 h2 h5 hfree
    match l, h6 with
    | [salt, f1, proto, hashes, f4, algo], _ =>
      simp at h2 h5
      subst h2 h5
      have h8 : strings_Split
          (strings_Join ([salt, f1, str "9", hashes, f4, algo].set 2 (str "8")) (str ":"))
          (str ":") = [salt, f1, str "8", hashes, f4, algo] := by
        have hfree8 : ∀ f ∈ [salt, f1, str "8", hashes, f4, algo], (58 : UInt8) ∉ f := by
          intro f hf
          simp only [List.mem_cons, List.mem_singleton, List.not_mem_nil, or_false] at hf
          rcases hf with h | h | h | h | h | h
          · exact h ▸ hfree salt (by simp)
          · exact h ▸ hfree f1 (by simp)
          · rw [h]; decide
          · exact h ▸ hfree hashes (by simp)
          · exact h ▸ hfree f4 (by simp)
          · exact h ▸ hfree algo (by simp)
        have := split_join 58 [salt, f1, str "8", hashes, f4, algo] (by simp) hfree8
        rw [← str_colon] at this
        simpa using this
      have htab : PyHashToGo algo = some h := by
        simp only [List.mem_cons, List.mem_singleton, List.not_mem_nil, or_false,
          Prod.mk.injEq] at hA
        rcases hA with ⟨e, g⟩ | ⟨e, g⟩ | ⟨e, g⟩ | ⟨e, g⟩ | ⟨e, g⟩ | ⟨e, g⟩ <;>
          (rw [e, g]; decide)
      exact ⟨htab, response_v9 P srv h challenge _ salt f1 hashes f4 algo f1 f4 [] [algo]
        hl h8 htab⟩
  · intro c8 salt hashes g5 g0 g2 g3
    obtain ⟨f1, f4, rest, h⟩ := fields_of _ salt (str "8") hashes g5 g0 g2 g3
    refine ⟨fun hs => ?_, fun hs hm => ?_, fun hs hm hc => ?_,
      fun hs hm hc hlen hsalt err herr => ?_⟩
    · exact response_v8_sha1 P srv c8 salt f1 hashes f4 rest h ((contains_iff _ _).mpr hs)
    · exact response_v8_md5 P srv c8 salt f1 hashes f4 rest h
        ((contains_eq_false_iff _ _).mpr hs) ((contains_iff _ _).mpr hm)
    · exact response_v8_plain P srv c8 salt f1 hashes f4 rest h
        ((contains_eq_false_iff _ _).mpr hs) ((contains_eq_false_iff _ _).mpr hm)
        ((contains_eq_false_iff _ _).mpr hc)
    · exact response_v8_crypt_error P srv c8 salt f1 hashes f4 rest h
        ((contains_eq_false_iff _ _).mpr hs) ((contains_eq_false_iff _ _).mpr hm)
        ((contains_iff _ _).mpr hc) hlen hsalt err herr

/-- Witness of C4: for each of the six algorithm names, the line for
`salt:mserver:9:SHA1:LIT:<name>` equals the line for
`salt:mserver:8:SHA1:LIT:<name>` on the server whose password is the hex
digest of `secret` under that very algorithm (the sample digest starts with
the index of its algorithm, so the six passwords differ); and a protocol-"8"
challenge hashes the password `secret` itself. -/
theorem challenge_response_v9_prehash_witness :
    (challenge_response samplePrimitives sampleServer (str "salt:mserver:9:SHA1:LIT:MD5") =
      challenge_response samplePrimitives
        { sampleServer with password := str "00746572636573" }
        (str "salt:mserver:8:SHA1:LIT:MD5")) ∧
    (challenge_response samplePrimitives sampleServer (str "salt:mserver:9:SHA1:LIT:SHA1") =
      challenge_response samplePrimitives
        { sampleServer with password := str "01746572636573" }
        (str "salt:mserver:8:SHA1:LIT:SHA1")) ∧
    (challenge_response samplePrimitives sampleServer
        (str "salt:mserver:9:SHA1:LIT:SHA224") =
      challenge_response samplePrimitives
        { sampleServer with password := str "02746572636573" }
        (str "salt:mserver:8:SHA1:LIT:SHA224")) ∧
    (challenge_response samplePrimitives sampleServer
        (str "salt:mserver:9:SHA1:LIT:SHA256") =
      challenge_response samplePrimitives
        { sampleServer with password := str "03746572636573" }
        (str "salt:mserver:8:SHA1:LIT:SHA256")) ∧
    (challenge_response samplePrimitives sampleServer
        (str "salt:mserver:9:SHA1:LIT:SHA384") =
      challenge_response samplePrimitives
        { sampleServer with password := str "04746572636573" }
        (str "salt:mserver:8:SHA1:LIT:SHA384")) ∧
    (challenge_response samplePrimitives sampleServer
        (str "salt:mserver:9:SHA1:LIT:SHA512") =
      challenge_response samplePrimitives
        { sampleServer with password := str "05746572636573" }
        (str "salt:mserver:8:SHA1:LIT:SHA512")) ∧
    challenge_response samplePrimitives sampleServer (str "salt:mserver:9:SHA1:LIT:MD5") =
      .ok (str "BIG:monetdb:{SHA1}01746c61733337353633363237353634373030:sql:demo:") ∧
    challenge_response samplePrimitives sampleServer (str "salt:mserver:8:MD5:LIT") =
      .ok (str "BIG:monetdb:{MD5}00746c6173746572636573:sql:demo:") :=
  ⟨(challenge_response_v9_prehash samplePrimitives sampleServer
      (str "salt:mserver:9:SHA1:LIT:MD5") (str "MD5") .MD5
      (by decide) (by decide) (by decide) (by decide)).1.2,
   (challenge_response_v9_prehash samplePrimitives sampleServer
      (str "salt:mserver:9:SHA1:LIT:SHA1") (str "SHA1") .SHA1
      (by decide) (by decide) (by decide) (by decide)).1.2,
   (challenge_response_v9_prehash samplePrimitives sampleServer
      (str "salt:mserver:9:SHA1:LIT:SHA224") (str "SHA224") .SHA224
      (by decide) (by decide) (by decide) (by decide)).1.2,
   (challenge_response_v9_prehash samplePrimitives sampleServer
      (str "salt:mserver:9:SHA1:LIT:SHA256") (str "SHA256") .SHA256
      (by decide) (by decide) (by decide) (by decide)).1.2,
   (challenge_response_v9_prehash samplePrimitives sampleServer
      (str "salt:mserver:9:SHA1:LIT:SHA384") (str "SHA384") .SHA384
      (by decide) (by decide) (by decide) (by decide)).1.2,
   (challenge_response_v9_prehash samplePrimitives sampleServer
      (str "salt:mserver:9:SHA1:LIT:SHA512") (str "SHA512") .SHA512
      (by decide) (by decide) (by decide) (by decide)).1.2,
   by decide,
   ((challenge_response_v9_prehash samplePrimitives sampleServer
      (str "salt:mserver:9:SHA1:LIT:SHA512") (str "SHA512") .SHA512
      (by decide) (by decide) (by decide) (by decide)).2
      (str "salt:mserver:8:MD5:LIT") (str "salt") (str "MD5") (by decide)
      (by decide) (by decide) (by decide)).2.1 (by decide) (by decide)⟩

/-- C5: for every challenge with at least five colon-separated fields whose
third field is neither "8" nor "9", `challenge_response` fails with the
unsupported-protocol panic and produces no response line, whatever the salt,
the hash list and the server credentials are. -/
theorem challenge_response_unsupported (P : Primitives) (srv : server)
    (challenge proto : GoString)
    (h5 : 5 ≤ (strings_Split challenge (str ":")).length)
    (h2 : (strings_Split challenge (str ":"))[2]? = some proto)
    (h8 : proto ≠ str "8") (h9 : proto ≠ str "9") :
    challenge_response P srv challenge =
        .error (.message (str "We only speak protocol v8 and v9")) ∧
    ∀ line, challenge_response P srv challenge ≠ .ok line := by
  obtain ⟨a, b, c, d, e, rest, h⟩ := fields_shape _ h5
  rw [h] at h2
  simp at h2
  subst h2
  have e := response_other P srv challenge a b c d e rest h h8 h9
  rw [e]
  exact ⟨rfl, fun line hl => by cases hl⟩

/-- Witness of C5 on a protocol-"10" challenge. -/
theorem challenge_response_unsupported_witness :
    challenge_response samplePrimitives sampleServer (str "salt:mserver:10:SHA1:LIT") =
        .error (.message (str "We only speak protocol v8 and v9")) ∧
    ∀ line, challenge_response samplePrimitives sampleServer
        (str "salt:mserver:10:SHA1:LIT") ≠ .ok line :=
  challenge_response_unsupported samplePrimitives sampleServer
    (str "salt:mserver:10:SHA1:LIT") (str "10") (by decide) (by decide) (by decide) (by decide)

/-- C6 as stated fails: `login` returns without error on the server of
`NewServer`, whose state is `STATE_INIT`, and `Connect` returns without error
on it when the dial succeeds, yet the state afterwards is not `STATE_READY`. -/
theorem login_not_ready :
    NewServer.state = STATE_INIT ∧
    (login NewServer 0).2 = none ∧
    (login NewServer 0).1.state ≠ STATE_READY ∧
    (Connect sampleDial NewServer (str "localhost") (str ":50000") (str "monetdb")
      (str "secret") (str "demo") (str "sql") 1000).2 = none ∧
    (Connect sampleDial NewServer (str "localhost") (str ":50000") (str "monetdb")
      (str "secret") (str "demo") (str "sql") 1000).1.state ≠ STATE_READY := by
  decide

/-- C6 amended: `login` returns without error on every server and writes no
field, so a server in `STATE_INIT` is still in `STATE_INIT` afterwards; and
`Connect`, whether the dial succeeds or fails, leaves the session state as it
was, so on a server created by `NewServer` it is `STATE_INIT` afterwards. -/
theorem login_keeps_state (dial : GoString → GoString → Int → Iface × Option GoError)
    (srv : server) (iteration : Int)
    (hostname port username password database language : GoString) (timeout : Int) :
    login srv iteration = (srv, none) ∧
    (Connect dial srv hostname port username password database language timeout).1.state =
      srv.state ∧
    (Connect dial NewServer hostname port username password database language
      timeout).1.state = STATE_INIT := by
  refine ⟨rfl, ?_, ?_⟩
  · simp only [Connect]
    split <;> rfl
  · simp only [Connect]
    split <;> rfl

/-- C7: for every server state and every six strings, `setConn` leaves the
server with exactly those six values in the credential fields and leaves the
session state, result, socket and netConn unchanged; a second `setConn` fully
overwrites the first; and `Connect` stores the same six values. -/
theorem setConn_frame (srv : server) (hostname port username password database language : GoString)
    (hostname2 port2 username2 password2 database2 language2 : GoString)
    (dial : GoString → GoString → Int → Iface × Option GoError) (timeout : Int) :
    setConn srv hostname port username password database language =
      { hostname := hostname, port := port, username := username, password := password,
        database := database, language := language, netConn := srv.netConn,
        state := srv.state, result := srv.result, socket := srv.socket } ∧
    setConn (setConn srv hostname port username password database language)
        hostname2 port2 username2 password2 database2 language2 =
      setConn srv hostname2 port2 username2 password2 database2 language2 ∧
    (Connect dial srv hostname port username password database language timeout).1 =
      { setConn srv hostname port username password database language with
        netConn := (dial NET (hostname ++ port) timeout).1 } := by
  refine ⟨rfl, rfl, ?_⟩
  simp only [Connect]
  split <;> rfl

/-- C8: on a protocol-"8" challenge with at least five fields whose hash list
contains none of "SHA1", "MD5" and "crypt", the response is
`BIG:<username>:{plain}<password><salt>:<language>:<database>:`. -/
theorem challenge_response_plain (P : Primitives) (srv : server)
    (challenge salt hashes : GoString)
    (h5 : 5 ≤ (strings_Split challenge (str ":")).length)
    (h0 : (strings_Split challenge (str ":"))[0]? = some salt)
    (h2 : (strings_Split challenge (str ":"))[2]? = some (str "8"))
    (h3 : (strings_Split challenge (str ":"))[3]? = some hashes)
    (hs : str "SHA1" ∉ strings_Split hashes (str ","))
    (hm : str "MD5" ∉ strings_Split hashes (str ","))
    (hc : str "crypt" ∉ strings_Split hashes (str ",")) :
    challenge_response P srv challenge =
      .ok (str "BIG:" ++ srv.username ++ str ":{plain}" ++ srv.password ++ salt ++ str ":" ++
        srv.language ++ str ":" ++ srv.database ++ str ":") := by
  obtain ⟨f1, f4, rest, h⟩ := fields_of _ salt (str "8") hashes h5 h0 h2 h3
  have hp : str ":{plain}" = str ":" ++ str "{plain}" := by decide
  rw [response_v8_plain P srv challenge salt f1 hashes f4 rest h
    ((contains_eq_false_iff _ _).mpr hs) ((contains_eq_false_iff _ _).mpr hm)
    ((contains_eq_false_iff _ _).mpr hc), hp]
  simp

/-- Witness of C8 on a challenge with the empty hash list, and on one whose
list names only an algorithm outside SHA1, MD5 and crypt. -/
theorem challenge_response_plain_witness :
    challenge_response samplePrimitives sampleServer (str "salt:mserver:8::LIT") =
      .ok (str "BIG:monetdb:{plain}secretsalt:sql:demo:") ∧
    challenge_response samplePrimitives sampleServer (str "salt:mserver:8:RIPEMD160:LIT") =
      .ok (str "BIG:monetdb:{plain}secretsalt:sql:demo:") :=
  ⟨challenge_response_plain samplePrimitives sampleServer (str "salt:mserver:8::LIT")
      (str "salt") (str "") (by decide) (by decide) (by decide) (by decide) (by decide)
      (by decide) (by decide),
   challenge_response_plain samplePrimitives sampleServer
      (str "salt:mserver:8:RIPEMD160:LIT") (str "salt") (str "RIPEMD160") (by decide)
      (by decide) (by decide) (by decide) (by decide) (by decide) (by decide)⟩

/-- C9: on a challenge with exactly five colon-separated fields, protocol
field "8" and a hash list that contains "SHA1", or "MD5", or none of SHA1, MD5
and crypt, `challenge_response` returns a response line for every server
state; it does not fail on a missing field. -/
theorem challenge_response_five_fields (P : Primitives) (srv : server)
    (challenge hashes : GoString)
    (h5 : (strings_Split challenge (str ":")).length = 5)
    (h2 : (strings_Split challenge (str ":"))[2]? = some (str "8"))
    (h3 : (strings_Split challenge (str ":"))[3]? = some hashes)
    (hh : str "SHA1" ∈ strings_Split hashes (str ",") ∨
      str "MD5" ∈ strings_Split hashes (str ",") ∨
      (str "SHA1" ∉ strings_Split hashes (str ",") ∧
        str "MD5" ∉ strings_Split hashes (str ",") ∧
        str "crypt" ∉ strings_Split hashes (str ","))) :
    (∃ line, challenge_response P srv challenge = .ok line) ∧
    (∀ i n, challenge_response P srv challenge ≠ .error (.indexOutOfRange i n)) ∧
    challenge_response P srv challenge ≠ .error .sliceOutOfRange := by
  have hok : ∃ line, challenge_response P srv challenge = .ok line := by
    obtain ⟨a, b, c, d, e, rest, h⟩ := fields_shape _ (le_of_eq h5.symm)
    rw [h] at h2 h3
    simp at h2 h3
    subst h2 h3
    by_cases hs : str "SHA1" ∈ strings_Split d (str ",")
    · exact ⟨_, response_v8_sha1 P srv challenge a b d e rest h ((contains_iff _ _).mpr hs)⟩
    · by_cases hm : str "MD5" ∈ strings_Split d (str ",")
      · exact ⟨_, response_v8_md5 P srv challenge a b d e rest h
          ((contains_eq_false_iff _ _).mpr hs) ((contains_iff _ _).mpr hm)⟩
      · rcases hh with h1 | h1 | ⟨_, _, hc⟩
        · exact absurd h1 hs
        · exact absurd h1 hm
        · exact ⟨_, response_v8_plain P srv challenge a b d e rest h
            ((contains_eq_false_iff _ _).mpr hs) ((contains_eq_false_iff _ _).mpr hm)
            ((contains_eq_false_iff _ _).mpr hc)⟩
  obtain ⟨line, hl⟩ := hok
  rw [hl]
  refine ⟨⟨line, rfl⟩, ?_, ?_⟩
  · intro i n h
    cases h
  · intro h
    cases h

/-- Witness of C9 on the five-field challenge `:mserver:8:MD5:LIT` with the
empty salt, on a server with the empty password. -/
theorem challenge_response_five_fields_witness :
    (∃ line, challenge_response samplePrimitives { sampleServer with password := [] }
      (str ":mserver:8:MD5:LIT") = .ok line) ∧
    (∀ i n, challenge_response samplePrimitives { sampleServer with password := [] }
      (str ":mserver:8:MD5:LIT") ≠ .error (.indexOutOfRange i n)) ∧
    challenge_response samplePrimitives { sampleServer with password := [] }
      (str ":mserver:8:MD5:LIT") ≠ .error .sliceOutOfRange :=
  challenge_response_five_fields samplePrimitives { sampleServer with password := [] }
    (str ":mserver:8:MD5:LIT") (str "MD5") (by decide) (by decide) (by decide)
    (Or.inr (Or.inl (by decide)))

/-- C10: for every server state and every operation string, `Cmd` returns the
non-nil error `notImplemented`, whose message is "Not implemented yet.", and
leaves the server unchanged; `Cmd` succeeds on no input. -/
theorem Cmd_not_implemented (srv : server) (operation : GoString) :
    (Cmd srv operation).2 = some notImplemented ∧
    notImplemented.msg = str "Not implemented yet." ∧
    (Cmd srv operation).1 = srv ∧
    (Cmd srv operation).2 ≠ none := by
  refine ⟨rfl, rfl, rfl, ?_⟩
  simp [Cmd]

end Monet
